import Mathlib

/-!
Verification development for the WATER accessibility scoring engine
(`backend/metrics_calculator.py`).

The Python code parses raw HTML fragment strings with BeautifulSoup and
then only inspects, per fragment, whether an element of the expected tag
was found (`soup('img')[0]` raises `IndexError` otherwise), the values of
a handful of attributes (`['alt']` etc. raise `KeyError` when absent) and
the visible text.  The embedding therefore represents each fragment by
exactly those observables: a `present` flag (an element of the expected
tag name was parsed), the relevant optional attributes, and the text.
Python exceptions that can escape a metric method are modelled with
`Except PyError`; `float` ratios are modelled exactly in `ℚ`.
-/

/-- The two Python exception kinds that metric code can raise:
`KeyError` from a missing attribute lookup `tag['attr']`, and
`IndexError` from `soup('name')[0]` when no element of the expected
tag name was parsed from the fragment. -/
inductive PyError
  | keyError
  | indexError
deriving DecidableEq

instance {ε α : Type} [DecidableEq ε] [DecidableEq α] : DecidableEq (Except ε α) := fun x y =>
  match x, y with
  | .ok a, .ok b => if h : a = b then .isTrue (by rw [h]) else .isFalse (by simp [h])
  | .error e, .error f => if h : e = f then .isTrue (by rw [h]) else .isFalse (by simp [h])
  | .ok _, .error _ => .isFalse (by simp)
  | .error _, .ok _ => .isFalse (by simp)

/-- Python `str.lower()` (the fragments at hand are ASCII, where
`Char.toLower` agrees with Python's per-character lowering). -/
def lowerStr (s : String) : String := ⟨s.data.map Char.toLower⟩

/-- Whether `needle` occurs at the head of `hay` (helper for the
substring test). -/
def takesLead : List Char → List Char → Bool
  | [], _ => true
  | _ :: _, [] => false
  | c :: cs, d :: ds => (c == d) && takesLead cs ds

/-- Whether `needle` occurs contiguously anywhere in `hay`. -/
def containsSeg (needle : List Char) : List Char → Bool
  | [] => takesLead needle []
  | d :: ds => takesLead needle (d :: ds) || containsSeg needle ds

/-- Python's `needle in hay` substring test on strings (case-sensitive,
contiguous; the empty needle always matches). -/
def substrOf (needle hay : String) : Bool := containsSeg needle.data hay.data

/-- Helper for `pySplit`: accumulator-based split on single spaces. -/
def splitSpaces (acc : List Char) : List Char → List String
  | [] => [⟨acc.reverse⟩]
  | c :: cs =>
    if c == ' ' then (⟨acc.reverse⟩ : String) :: splitSpaces [] cs
    else splitSpaces (c :: acc) cs

/-- Python `s.split(" ")`: split on every single space character, keeping
empty tokens (so `""` splits to `[""]` and `"a  b"` to `["a", "", "b"]`). -/
def pySplit (s : String) : List String := splitSpaces [] s.data

/-- One `<img>` fragment as observed by `_calculate_alt_metric`:
whether an `img` element was parsed, and its `alt` attribute if any. -/
structure ImgFrag where
  present : Bool
  alt : Option String
deriving DecidableEq

/-- One `<a>` fragment as observed by `_calculate_hyperlinks_metric`:
whether an `a` element was parsed, its `href` attribute if any, and the
visible text (`soup.text`). -/
structure AFrag where
  present : Bool
  href : Option String
  text : String
deriving DecidableEq

/-- One `<label>` fragment as observed by `_calculate_label_input_metric`:
whether a `label` element was parsed, and its `for` attribute if any. -/
structure LabelFrag where
  present : Bool
  forAttr : Option String
deriving DecidableEq

/-- One `<input>` fragment as observed by `_calculate_label_input_metric`:
whether an `input` element was parsed, its `id` attribute if any, and
whether it carries the boolean `hidden` attribute. -/
structure InputFrag where
  present : Bool
  id : Option String
  hidden : Bool
deriving DecidableEq

/-- A metric value as appended to `row_data`: the string sentinel
`"No Data"` for an empty tag list, or the exact ratio otherwise. -/
inductive MetricValue
  | noData
  | score (q : ℚ)
deriving DecidableEq

/-- The meaningfulness test on an `alt` value, verbatim from the `if` in
`_calculate_alt_metric`: `alt_text.lower() != "image" and alt_text != ""
and "graphic of" not in alt_text.lower() and "image of" not in
alt_text.lower() and "picture of" not in alt_text.lower() and
"this is an image of" not in alt_text.lower()`. -/
def meaningfulAlt (alt_text : String) : Bool :=
  (lowerStr alt_text != "image") && (alt_text != "") &&
  !(substrOf "graphic of" (lowerStr alt_text)) &&
  !(substrOf "image of" (lowerStr alt_text)) &&
  !(substrOf "picture of" (lowerStr alt_text)) &&
  !(substrOf "this is an image of" (lowerStr alt_text))

/-- The loop body of `_calculate_alt_metric` for one fragment:
`soup('img')[0]` raises `IndexError` if no `img` element was parsed
(not caught: the body only catches `KeyError`); `['alt']` raises
`KeyError` when `alt` is absent, which the `except KeyError: pass`
turns into "does not count". -/
def imgContributes (tag : ImgFrag) : Except PyError Bool :=
  if tag.present then
    match tag.alt with
    | some alt_text => .ok (meaningfulAlt alt_text)
    | none => .ok false
  else .error .indexError

/-- Counting loop shared by the three metric methods: run the per-element
test left to right, accumulating the number of `true` results; the first
uncaught exception aborts the whole count. -/
def countExc {α : Type} (p : α → Except PyError Bool) : List α → Except PyError Nat
  | [] => .ok 0
  | x :: xs =>
    match p x with
    | .error e => .error e
    | .ok b =>
      match countExc p xs with
      | .error e => .error e
      | .ok c => .ok (if b then c + 1 else c)

/-- `MetricsCalculator._calculate_alt_metric` (ITAA): `"No Data"` on an
empty list, else the count of meaningful-`alt` images over the total
number of `<img>` fragments. -/
def calculate_alt_metric (img_tags : List ImgFrag) : Except PyError MetricValue :=
  if img_tags.length = 0 then .ok .noData
  else
    match countExc imgContributes img_tags with
    | .error e => .error e
    | .ok count_alt => .ok (.score ((count_alt : ℚ) / (img_tags.length : ℚ)))

/-- The loop body of `_calculate_hyperlinks_metric` for one fragment:
iterate over `soup.text.split(" ")` and test `curr_str in
soup('a')[0]['href']`.  The split list is never empty, so the first
iteration already evaluates `soup('a')[0]['href']`: a fragment with no
`a` element raises `IndexError`, one without `href` raises `KeyError`,
and the method has no `try`, so both escape. -/
def hrefContributes (curr_href : AFrag) : Except PyError Bool :=
  if curr_href.present then
    match curr_href.href with
    | some h => .ok ((pySplit curr_href.text).any (fun curr_str => substrOf curr_str h))
    | none => .error .keyError
  else .error .indexError

/-- `MetricsCalculator._calculate_hyperlinks_metric` (HAM): `"No Data"`
on an empty list, else the count of links some text token of which is a
substring of the `href`, over the total number of fragments. -/
def calculate_hyperlinks_metric (href_elements : List AFrag) : Except PyError MetricValue :=
  if href_elements.length = 0 then .ok .noData
  else
    match countExc hrefContributes href_elements with
    | .error e => .error e
    | .ok count_href => .ok (.score ((count_href : ℚ) / (href_elements.length : ℚ)))

/-- The inner label loop of `_calculate_label_input_metric` for one input
with id `input_id`: for each label, `soup_label('label')[0]` raises
`IndexError` when no `label` element was parsed (never caught), and
`['for']` raises `KeyError` when `for` is absent (caught one level up, at
the input loop).  On a substring match the code re-reads the input's
`hidden` attribute: if `hidden` is present nothing happens and the scan
continues; if absent, the `except KeyError` counts the input and breaks. -/
def scanLabels (curr_input : InputFrag) (input_id : String) :
    List LabelFrag → Except PyError Bool
  | [] => .ok false
  | curr_label :: rest =>
    if curr_label.present then
      match curr_label.forAttr with
      | some for_val =>
        if substrOf input_id for_val then
          if curr_input.hidden then scanLabels curr_input input_id rest
          else .ok true
        else scanLabels curr_input input_id rest
      | none => .error .keyError
    else .error .indexError

/-- The outer input loop body of `_calculate_label_input_metric`:
`soup('input')[0]` raises `IndexError` when no `input` element was parsed
(escapes, since only `KeyError` is caught); a missing `id`, or a
`KeyError` from a label's missing `for`, lands in the input-level
`except KeyError: pass`, so the input contributes nothing. -/
def inputContributes (label_tags : List LabelFrag) (curr_input : InputFrag) :
    Except PyError Bool :=
  if curr_input.present then
    match curr_input.id with
    | some input_id =>
      match scanLabels curr_input input_id label_tags with
      | .ok b => .ok b
      | .error .keyError => .ok false
      | .error .indexError => .error .indexError
    | none => .ok false
  else .error .indexError

/-- The `elif len(label_tags) == 0` scan of `_calculate_label_input_metric`:
walk the inputs; the first one that parses but lacks `hidden` makes the
method append `0.0` and return (result `true` here); if every input is
hidden the scan falls through (result `false`); an unparseable input
raises `IndexError`. -/
def hiddenShortCircuit : List InputFrag → Except PyError Bool
  | [] => .ok false
  | curr_input :: rest =>
    if curr_input.present then
      if curr_input.hidden then hiddenShortCircuit rest
      else .ok true
    else .error .indexError

/-- `MetricsCalculator._calculate_label_input_metric` (LIM): `"No Data"`
on an empty input list; with an empty label list the short-circuit scan
may yield `0.0` immediately; otherwise the general count of
label-matched, non-hidden inputs over the total number of inputs. -/
def calculate_label_input_metric (label_tags : List LabelFrag)
    (input_tags : List InputFrag) : Except PyError MetricValue :=
  if input_tags.length = 0 then .ok .noData
  else
    match (if label_tags.length = 0 then hiddenShortCircuit input_tags else .ok false) with
    | .error e => .error e
    | .ok true => .ok (.score 0)
    | .ok false =>
      match countExc (inputContributes label_tags) input_tags with
      | .error e => .error e
      | .ok count_label_input =>
        .ok (.score ((count_label_input : ℚ) / (input_tags.length : ℚ)))

/-- Outcome of the external accessibility lookup in
`_get_accessibility_percent`: the percentage text found on the first
attempt, the text found on the retry, or total failure.  The method wraps
every stage in `try`/`except Exception`, so it never raises; it appends
exactly one string in every case. -/
inductive LookupOutcome
  | found (text : String)
  | foundOnRetry (text : String)
  | failed
deriving DecidableEq

/-- The single string `_get_accessibility_percent` appends to `row_data`:
the scraped percentage text when either attempt succeeded, the `"-1%"`
sentinel otherwise. -/
def accessibilityPercent : LookupOutcome → String
  | .found t => t
  | .foundOnRetry t => t
  | .failed => "-1%"

/-- One stored per-site record, as read from the JSON file in
`calculate_metrics`: the site name and the four tag-fragment lists. -/
structure Record where
  name : String
  alt_tags : List ImgFrag
  href_tags : List AFrag
  label_tags : List LabelFrag
  input_tags : List InputFrag
deriving DecidableEq

/-- One cell of `row_data`: either a plain string (the name, or the
accessibility percentage) or a metric value. -/
inductive RowItem
  | str (s : String)
  | metric (m : MetricValue)
deriving DecidableEq

/-- The body of the `calculate_metrics` loop for one record: append the
name, the three metric values and the accessibility percentage in order.
An uncaught exception from any metric aborts the record (and, in the
Python, the whole run). -/
def processRecord (lookup : String → LookupOutcome) (r : Record) :
    Except PyError (List RowItem) :=
  match calculate_alt_metric r.alt_tags with
  | .error e => .error e
  | .ok itaa =>
    match calculate_hyperlinks_metric r.href_tags with
    | .error e => .error e
    | .ok ham =>
      match calculate_label_input_metric r.label_tags r.input_tags with
      | .error e => .error e
      | .ok lim =>
        .ok [.str r.name, .metric itaa, .metric ham, .metric lim,
             .str (accessibilityPercent (lookup r.name))]

/-- `MetricsCalculator.calculate_metrics`: iterate the stored records in
listing order; for each record build its row, write it to the CSV and
clear the buffer before the next record.  The returned list is the
sequence of written rows; an uncaught exception terminates the run. -/
def calculate_metrics (lookup : String → LookupOutcome) :
    List Record → Except PyError (List (List RowItem))
  | [] => .ok []
  | r :: rs =>
    match processRecord lookup r with
    | .error e => .error e
    | .ok row =>
      match calculate_metrics lookup rs with
      | .error e => .error e
      | .ok rest => .ok (row :: rest)

/-- The data-model invariant on a stored record (spec section 3): every
fragment parses as a single element of its stated tag name, and every
`<a>` fragment carries an `href` attribute. -/
def RecordInv (r : Record) : Prop :=
  (∀ f ∈ r.alt_tags, f.present = true) ∧
  (∀ f ∈ r.href_tags, f.present = true ∧ f.href.isSome = true) ∧
  (∀ f ∈ r.label_tags, f.present = true) ∧
  (∀ f ∈ r.input_tags, f.present = true)

instance (r : Record) : Decidable (RecordInv r) := by
  unfold RecordInv; infer_instance

/-- An `<img>` fragment counts toward the ITAA numerator: its `alt`
attribute exists and passes `meaningfulAlt`. -/
def imgMeaningful (f : ImgFrag) : Bool :=
  match f.alt with
  | some alt_text => meaningfulAlt alt_text
  | none => false

/-- An `<a>` fragment counts toward the HAM numerator: some token of its
visible text, split on single spaces, is a substring of its `href`. -/
def linkAccessible (f : AFrag) : Bool :=
  (pySplit f.text).any (fun curr_str => substrOf curr_str (f.href.getD ""))

/-- An `<input>` fragment counts toward the LIM numerator: it has an
`id`, is not `hidden`, and its `id` is a substring of some label's
`for` value. -/
def limMatched (label_tags : List LabelFrag) (inp : InputFrag) : Bool :=
  match inp.id with
  | some input_id =>
    !inp.hidden && label_tags.any (fun lab => substrOf input_id (lab.forAttr.getD ""))
  | none => false

/-- A metric value is the sentinel or a ratio between 0 and 1. -/
def metricInRange : MetricValue → Prop
  | .noData => True
  | .score q => 0 ≤ q ∧ q ≤ 1

/-- The pure evaluator: the triple of metric results computed from one
record's tag lists. -/
def evalRecord (r : Record) :
    Except PyError MetricValue × Except PyError MetricValue × Except PyError MetricValue :=
  (calculate_alt_metric r.alt_tags, calculate_hyperlinks_metric r.href_tags,
   calculate_label_input_metric r.label_tags r.input_tags)

/-- A concrete `<img>` list: one meaningful alt, one missing alt, one
boilerplate alt — ITAA 1/3. -/
def imgListW : List ImgFrag :=
  [⟨true, some "a photo of a dog"⟩, ⟨true, none⟩, ⟨true, some "an image of a cat"⟩]

/-- A concrete `<a>` list: one true substring match, one case mismatch —
HAM 1/2. -/
def aListW : List AFrag :=
  [⟨true, some "/shoes", "shoes"⟩, ⟨true, some "/products/shoes", "Shoes"⟩]

/-- A concrete `<label>` list with a `for` value that strictly contains
the input id. -/
def labelListW : List LabelFrag := [⟨true, some "x-field"⟩]

/-- A concrete `<input>` list: one visible input with id `"x"`. -/
def inputListW : List InputFrag := [⟨true, some "x", false⟩]

/-- A concrete well-formed record built from the lists above. -/
def recW : Record := ⟨"example.com", imgListW, aListW, labelListW, inputListW⟩

/-- Two concrete records: the full one and one with all lists empty. -/
def recsW : List Record := [recW, ⟨"empty.com", [], [], [], []⟩]

/-- A lookup that always fails, yielding the `"-1%"` sentinel. -/
def lookupW : String → LookupOutcome := fun _ => .failed

/-! ### Helper lemmas -/

lemma substrOf_nil (s : String) : substrOf "" s = true := by
  cases hd : s.data with
  | nil => simp [substrOf, containsSeg, takesLead, hd]
  | cons c cs => simp [substrOf, containsSeg, takesLead, hd]

lemma pySplit_empty : pySplit "" = [""] := by decide

lemma countExc_eq_countP {α : Type} (p : α → Except PyError Bool) (q : α → Bool)
    (l : List α) (h : ∀ x ∈ l, p x = .ok (q x)) : countExc p l = .ok (l.countP q) := by
  induction l with
  | nil => rfl
  | cons x xs ih =>
    have hx : p x = .ok (q x) := h x (List.mem_cons_self x xs)
    have hxs := ih (fun y hy => h y (List.mem_cons_of_mem x hy))
    cases hq : q x <;> simp [countExc, hx, hxs, hq, List.countP_cons]

lemma countExc_ok_bound {α : Type} (p : α → Except PyError Bool) (l : List α)
    (h : ∀ x ∈ l, ∃ b, p x = .ok b) :
    ∃ c, countExc p l = .ok c ∧ c ≤ l.length := by
  induction l with
  | nil => exact ⟨0, rfl, Nat.le_refl 0⟩
  | cons x xs ih =>
    obtain ⟨b, hb⟩ := h x (List.mem_cons_self _ _)
    obtain ⟨c, hc, hle⟩ := ih (fun y hy => h y (List.mem_cons_of_mem _ hy))
    refine ⟨if b then c + 1 else c, by simp [countExc, hb, hc], ?_⟩
    cases b <;> simp [List.length_cons] <;> omega

lemma ratio_in_range (c n : Nat) (hle : c ≤ n) (hn : n ≠ 0) :
    0 ≤ (c : ℚ) / (n : ℚ) ∧ (c : ℚ) / (n : ℚ) ≤ 1 := by
  have hn' : (0 : ℚ) < (n : ℚ) := by exact_mod_cast Nat.pos_of_ne_zero hn
  constructor
  · positivity
  · rw [div_le_one hn']
    exact_mod_cast hle

lemma imgContributes_eq (f : ImgFrag) (hp : f.present = true) :
    imgContributes f = .ok (imgMeaningful f) := by
  cases hfa : f.alt <;> simp [imgContributes, imgMeaningful, hp, hfa]

lemma alt_metric_eval (img_tags : List ImgFrag) (hp : ∀ f ∈ img_tags, f.present = true) :
    calculate_alt_metric img_tags =
      .ok (if img_tags.length = 0 then .noData
           else .score ((img_tags.countP imgMeaningful : ℚ) / (img_tags.length : ℚ))) := by
  by_cases h0 : img_tags.length = 0
  · simp [calculate_alt_metric, h0]
  · have hc := countExc_eq_countP imgContributes imgMeaningful img_tags
      (fun f hf => imgContributes_eq f (hp f hf))
    simp [calculate_alt_metric, h0, hc]

lemma hrefContributes_eq (f : AFrag) (hp : f.present = true) (hh : f.href.isSome = true) :
    hrefContributes f = .ok (linkAccessible f) := by
  cases hfa : f.href with
  | none => rw [hfa] at hh; simp at hh
  | some h' => simp [hrefContributes, linkAccessible, hp, hfa]

lemma hyperlinks_metric_eval (href_elements : List AFrag)
    (hp : ∀ f ∈ href_elements, f.present = true ∧ f.href.isSome = true) :
    calculate_hyperlinks_metric href_elements =
      .ok (if href_elements.length = 0 then .noData
           else .score ((href_elements.countP linkAccessible : ℚ) /
                        (href_elements.length : ℚ))) := by
  by_cases h0 : href_elements.length = 0
  · simp [calculate_hyperlinks_metric, h0]
  · have hc := countExc_eq_countP hrefContributes linkAccessible href_elements
      (fun f hf => hrefContributes_eq f (hp f hf).1 (hp f hf).2)
    simp [calculate_hyperlinks_metric, h0, hc]

lemma scanLabels_eval (inp : InputFrag) (input_id : String) (labs : List LabelFrag)
    (hl : ∀ lab ∈ labs, lab.present = true ∧ lab.forAttr.isSome = true) :
    scanLabels inp input_id labs =
      .ok (!inp.hidden &&
           labs.any (fun lab => substrOf input_id (lab.forAttr.getD ""))) := by
  induction labs with
  | nil => simp [scanLabels]
  | cons lab rest ih =>
    obtain ⟨hp, hs⟩ := hl lab (List.mem_cons_self _ _)
    obtain ⟨fv, hfv⟩ := Option.isSome_iff_exists.mp hs
    have ih' := ih (fun l hl' => hl l (List.mem_cons_of_mem _ hl'))
    cases hsub : substrOf input_id fv
    · simp [scanLabels, hp, hfv, hsub, ih']
    · cases hh : inp.hidden
      · simp [scanLabels, hp, hfv, hsub, hh]
      · simp [scanLabels, hp, hfv, hsub, hh, ih']

lemma inputContributes_eq (label_tags : List LabelFrag)
    (hl : ∀ lab ∈ label_tags, lab.present = true ∧ lab.forAttr.isSome = true)
    (inp : InputFrag) (hp : inp.present = true) :
    inputContributes label_tags inp = .ok (limMatched label_tags inp) := by
  cases hid : inp.id with
  | none => simp [inputContributes, limMatched, hp, hid]
  | some input_id =>
    have hscan := scanLabels_eval inp input_id label_tags hl
    simp [inputContributes, limMatched, hp, hid, hscan]

lemma lim_eval (label_tags : List LabelFrag) (input_tags : List InputFrag)
    (hl : ∀ lab ∈ label_tags, lab.present = true ∧ lab.forAttr.isSome = true)
    (hi : ∀ f ∈ input_tags, f.present = true)
    (hnl : label_tags ≠ []) :
    calculate_label_input_metric label_tags input_tags =
      .ok (if input_tags.length = 0 then .noData
           else .score ((input_tags.countP (limMatched label_tags) : ℚ) /
                        (input_tags.length : ℚ))) := by
  by_cases h0 : input_tags.length = 0
  · simp [calculate_label_input_metric, h0]
  · have hnl' : ¬(label_tags.length = 0) := by simpa using hnl
    have hc := countExc_eq_countP (inputContributes label_tags) (limMatched label_tags)
      input_tags (fun f hf => inputContributes_eq label_tags hl f (hi f hf))
    simp [calculate_label_input_metric, h0, hnl', hc]

lemma hiddenShortCircuit_all_hidden (xs : List InputFrag)
    (h : ∀ f ∈ xs, f.present = true ∧ f.hidden = true) :
    hiddenShortCircuit xs = .ok false := by
  induction xs with
  | nil => rfl
  | cons x rest ih =>
    obtain ⟨hp, hh⟩ := h x (List.mem_cons_self _ _)
    simp [hiddenShortCircuit, hp, hh, ih (fun f hf => h f (List.mem_cons_of_mem _ hf))]

lemma hiddenShortCircuit_fires (xs : List InputFrag)
    (h : ∀ f ∈ xs, f.present = true ∧ f.hidden = true)
    (y : InputFrag) (hyp : y.present = true) (hyh : y.hidden = false)
    (ys : List InputFrag) :
    hiddenShortCircuit (xs ++ y :: ys) = .ok true := by
  induction xs with
  | nil => simp [hiddenShortCircuit, hyp, hyh]
  | cons x rest ih =>
    obtain ⟨hp, hh⟩ := h x (List.mem_cons_self _ _)
    simp [hiddenShortCircuit, hp, hh, ih (fun f hf => h f (List.mem_cons_of_mem _ hf))]

lemma hiddenShortCircuit_no_error (xs : List InputFrag)
    (h : ∀ f ∈ xs, f.present = true) (e : PyError) :
    hiddenShortCircuit xs ≠ .error e := by
  induction xs with
  | nil => simp [hiddenShortCircuit]
  | cons x rest ih =>
    have hp := h x (List.mem_cons_self _ _)
    have ih' := ih (fun f hf => h f (List.mem_cons_of_mem _ hf))
    cases hh : x.hidden
    · simp [hiddenShortCircuit, hp, hh]
    · simpa [hiddenShortCircuit, hp, hh] using ih'

lemma scanLabels_no_indexError (inp : InputFrag) (input_id : String)
    (labs : List LabelFrag) (hl : ∀ lab ∈ labs, lab.present = true) :
    scanLabels inp input_id labs ≠ .error .indexError := by
  induction labs with
  | nil => simp [scanLabels]
  | cons lab rest ih =>
    have hp := hl lab (List.mem_cons_self _ _)
    have ih' := ih (fun l h => hl l (List.mem_cons_of_mem _ h))
    cases hfa : lab.forAttr with
    | none => simp [scanLabels, hp, hfa]
    | some fv =>
      cases hsub : substrOf input_id fv
      · simpa [scanLabels, hp, hfa, hsub] using ih'
      · cases hh : inp.hidden
        · simp [scanLabels, hp, hfa, hsub, hh]
        · simpa [scanLabels, hp, hfa, hsub, hh] using ih'

lemma inputContributes_total (label_tags : List LabelFrag)
    (hl : ∀ lab ∈ label_tags, lab.present = true)
    (inp : InputFrag) (hp : inp.present = true) :
    ∃ b, inputContributes label_tags inp = .ok b := by
  cases hid : inp.id with
  | none => exact ⟨false, by simp [inputContributes, hp, hid]⟩
  | some input_id =>
    cases hscan : scanLabels inp input_id label_tags with
    | ok b => exact ⟨b, by simp [inputContributes, hp, hid, hscan]⟩
    | error e =>
      cases e with
      | keyError => exact ⟨false, by simp [inputContributes, hp, hid, hscan]⟩
      | indexError =>
        exact absurd hscan (scanLabels_no_indexError inp input_id label_tags hl)

lemma lim_total (label_tags : List LabelFrag) (input_tags : List InputFrag)
    (hl : ∀ lab ∈ label_tags, lab.present = true)
    (hi : ∀ f ∈ input_tags, f.present = true) :
    ∃ v, calculate_label_input_metric label_tags input_tags = .ok v ∧ metricInRange v := by
  by_cases h0 : input_tags.length = 0
  · exact ⟨.noData, by simp [calculate_label_input_metric, h0], trivial⟩
  · obtain ⟨c, hc, hle⟩ := countExc_ok_bound (inputContributes label_tags) input_tags
      (fun f hf => inputContributes_total label_tags hl f (hi f hf))
    have hrange := ratio_in_range c input_tags.length hle h0
    by_cases hlz : label_tags.length = 0
    · cases hsc : hiddenShortCircuit input_tags with
      | ok b =>
        cases b
        · exact ⟨.score ((c : ℚ) / (input_tags.length : ℚ)),
            by simp [calculate_label_input_metric, h0, hlz, hsc, hc], hrange⟩
        · refine ⟨.score 0, by simp [calculate_label_input_metric, h0, hlz, hsc], ?_⟩
          constructor <;> norm_num
      | error e => exact absurd hsc (hiddenShortCircuit_no_error input_tags hi e)
    · exact ⟨.score ((c : ℚ) / (input_tags.length : ℚ)),
        by simp [calculate_label_input_metric, h0, hlz, hc], hrange⟩

lemma processRecord_ok (lookup : String → LookupOutcome) (r : Record) (h : RecordInv r) :
    ∃ v1 v2 v3, processRecord lookup r =
      .ok [.str r.name, .metric v1, .metric v2, .metric v3,
           .str (accessibilityPercent (lookup r.name))] := by
  obtain ⟨h1, h2, h3, h4⟩ := h
  have e1 := alt_metric_eval r.alt_tags h1
  have e2 := hyperlinks_metric_eval r.href_tags h2
  obtain ⟨v3, e3, _⟩ := lim_total r.label_tags r.input_tags h3 h4
  refine ⟨if r.alt_tags.length = 0 then .noData
          else .score ((r.alt_tags.countP imgMeaningful : ℚ) / (r.alt_tags.length : ℚ)),
         if r.href_tags.length = 0 then .noData
          else .score ((r.href_tags.countP linkAccessible : ℚ) / (r.href_tags.length : ℚ)),
         v3, ?_⟩
  simp only [processRecord, e1, e2, e3]

lemma scanLabels_stops (inp : InputFrag) (input_id fv : String)
    (labs1 : List LabelFrag)
    (h1 : ∀ l ∈ labs1, l.present = true ∧ l.forAttr.isSome = true)
    (lab : LabelFrag) (hp : lab.present = true) (hfv : lab.forAttr = some fv)
    (hsub : substrOf input_id fv = true) (hh : inp.hidden = false)
    (labs2 : List LabelFrag) :
    scanLabels inp input_id (labs1 ++ lab :: labs2) = .ok true := by
  induction labs1 with
  | nil => simp [scanLabels, hp, hfv, hsub, hh]
  | cons l ls ih =>
    obtain ⟨hlp, hls⟩ := h1 l (List.mem_cons_self _ _)
    obtain ⟨gv, hgv⟩ := Option.isSome_iff_exists.mp hls
    have ih' := ih (fun x hx => h1 x (List.mem_cons_of_mem _ hx))
    cases hsub2 : substrOf input_id gv
    · simpa [scanLabels, hlp, hgv, hsub2] using ih'
    · simp [scanLabels, hlp, hgv, hsub2, hh]

/-! ### Claim theorems -/

/-- C1: ITAA computation: for every list of parsed `<img>` fragments,
the non-empty case yields exactly (number of fragments whose `alt`
attribute exists and is meaningful: case-insensitively not `"image"`,
not the empty string, containing none of the boilerplate substrings
`"graphic of"`, `"image of"`, `"picture of"`, `"this is an image of"`)
divided by the total number of fragments — a fragment without `alt`
counts in the denominator but never in the numerator — and the empty
list yields the `"No Data"` sentinel. -/
theorem itaa_formula (img_tags : List ImgFrag)
    (hp : ∀ f ∈ img_tags, f.present = true) :
    calculate_alt_metric img_tags =
      .ok (if img_tags.length = 0 then .noData
           else .score ((img_tags.countP imgMeaningful : ℚ) / (img_tags.length : ℚ))) :=
  alt_metric_eval img_tags hp

/-- Witness for C1: on one meaningful alt, one missing alt and one
boilerplate alt, ITAA evaluates to 1/3. -/
theorem itaa_formula_witness :
    calculate_alt_metric imgListW = .ok (.score (1 / 3)) := by
  have h := itaa_formula imgListW (by decide)
  have hc : List.countP imgMeaningful imgListW = 1 := by decide
  rw [h, hc]
  norm_num [imgListW]

/-- C2: HAM computation: for every list of parsed `<a href>` fragments,
a link is accessible exactly when some token of its visible text, split
on single spaces, is a case-sensitive substring of its `href` (the empty
token matches trivially, so empty visible text makes a link accessible);
the non-empty case yields accessible/total and the empty list yields the
`"No Data"` sentinel; in particular `<a href="/products/shoes">Shoes</a>`
is not accessible while `<a href="/shoes">shoes</a>` is. -/
theorem ham_formula (href_elements : List AFrag)
    (hp : ∀ f ∈ href_elements, f.present = true ∧ f.href.isSome = true) :
    calculate_hyperlinks_metric href_elements =
      .ok (if href_elements.length = 0 then .noData
           else .score ((href_elements.countP linkAccessible : ℚ) /
                        (href_elements.length : ℚ)))
    ∧ linkAccessible ⟨true, some "/products/shoes", "Shoes"⟩ = false
    ∧ linkAccessible ⟨true, some "/shoes", "shoes"⟩ = true
    ∧ (∀ url : String, linkAccessible ⟨true, some url, ""⟩ = true) :=
  ⟨hyperlinks_metric_eval href_elements hp, by decide, by decide,
   fun url => by simp [linkAccessible, pySplit_empty, substrOf_nil]⟩

/-- Witness for C2: on one matching and one case-mismatched link, HAM
evaluates to 1/2. -/
theorem ham_formula_witness :
    calculate_hyperlinks_metric aListW = .ok (.score (1 / 2)) := by
  have h := (ham_formula aListW (by decide)).1
  have hc : List.countP linkAccessible aListW = 1 := by decide
  rw [h, hc]
  norm_num [aListW]

/-- C3: LIM short-circuit branch: with an empty label list, a non-hidden
input makes the metric exactly 0.0 by short-circuiting at the first such
input — the inputs after it are universally quantified and unconstrained,
so no later input is examined — and if every input is hidden the general
count runs with the empty label set and also yields 0.0. -/
theorem lim_short_circuit (xs : List InputFrag)
    (hxs : ∀ f ∈ xs, f.present = true ∧ f.hidden = true) :
    (∀ (y : InputFrag) (ys : List InputFrag), y.present = true → y.hidden = false →
      calculate_label_input_metric [] (xs ++ y :: ys) = .ok (.score 0))
    ∧ (xs ≠ [] → calculate_label_input_metric [] xs = .ok (.score 0)) := by
  constructor
  · intro y ys hyp hyh
    have hf := hiddenShortCircuit_fires xs hxs y hyp hyh ys
    have h0 : ¬((xs ++ y :: ys).length = 0) := by simp
    simp [calculate_label_input_metric, h0, hf]
  · intro hne
    have h0 : ¬(xs.length = 0) := by simpa using hne
    have hsc := hiddenShortCircuit_all_hidden xs hxs
    have hforall : ∀ f ∈ xs, inputContributes [] f = .ok ((fun _ => false) f) := by
      intro f hf
      have heq := inputContributes_eq [] (by simp) f (hxs f hf).1
      rw [heq]
      cases hid : f.id <;> simp [limMatched, hid]
    have hc := countExc_eq_countP (inputContributes []) (fun _ => false) xs hforall
    simp [calculate_label_input_metric, h0, hsc, hc]

/-- Witness for C3: one hidden input followed by a visible one
short-circuits to 0.0 even though a later list element is not even
parseable. -/
theorem lim_short_circuit_witness :
    calculate_label_input_metric []
      ([(⟨true, none, true⟩ : InputFrag)] ++
        (⟨true, some "x", false⟩ : InputFrag) :: [⟨false, none, false⟩]) =
      .ok (.score 0) :=
  (lim_short_circuit [⟨true, none, true⟩] (by decide)).1 ⟨true, some "x", false⟩
    [⟨false, none, false⟩] rfl rfl

/-- C4, amended: the unrestricted claim fails on the code — a label
lacking `for` raises a `KeyError` that aborts the label scan for the
current input, so the matched-iff characterisation only holds once the
label list is restricted to labels carrying a `for` attribute (the
counterexample theorem below exhibits the failure).  Under that
restriction, with non-empty label and input lists, an input is matched
exactly when it has an `id`, is not `hidden`, and its `id` is a
substring of some label's `for` value; inputs without `id` contribute
nothing; each input is counted at most once, the label scan stopping at
the first counted match (the labels after the match are universally
quantified and unconstrained); the metric is matched/total. -/
theorem lim_general (label_tags : List LabelFrag) (input_tags : List InputFrag)
    (hl : ∀ lab ∈ label_tags, lab.present = true ∧ lab.forAttr.isSome = true)
    (hi : ∀ f ∈ input_tags, f.present = true)
    (hnl : label_tags ≠ []) (hni : input_tags ≠ []) :
    calculate_label_input_metric label_tags input_tags =
      .ok (.score ((input_tags.countP (limMatched label_tags) : ℚ) /
                   (input_tags.length : ℚ)))
    ∧ (∀ (inp : InputFrag) (input_id fv : String) (labs1 labs2 : List LabelFrag)
        (lab : LabelFrag),
        (∀ l ∈ labs1, l.present = true ∧ l.forAttr.isSome = true) →
        lab.present = true → lab.forAttr = some fv → substrOf input_id fv = true →
        inp.hidden = false →
        scanLabels inp input_id (labs1 ++ lab :: labs2) = .ok true) := by
  constructor
  · have h0 : ¬(input_tags.length = 0) := by simpa using hni
    have heval := lim_eval label_tags input_tags hl hi hnl
    rw [heval, if_neg h0]
  · exact fun inp input_id fv labs1 labs2 lab ha hb hc hd he =>
      scanLabels_stops inp input_id fv labs1 ha lab hb hc hd he labs2

/-- Counterexample for C4 as stated: with labels
`[<label>x</label>, <label for="x">x</label>]` (the first lacking `for`)
and the single input `<input id="x">`, the input satisfies the claim's
matched condition (it has an `id`, is not `hidden`, and its `id` is a
substring of the second label's `for`), so the claim's formula gives
1/1; the code instead yields 0, because the first label's `KeyError`
aborts the label scan for that input before the matching label is
examined. -/
theorem lim_general_counterexample :
    calculate_label_input_metric [⟨true, none⟩, ⟨true, some "x"⟩]
        [⟨true, some "x", false⟩] ≠
      .ok (.score
        ((List.countP (limMatched [⟨true, none⟩, ⟨true, some "x"⟩])
            [⟨true, some "x", false⟩] : ℚ) /
         (List.length ([⟨true, some "x", false⟩] : List InputFrag) : ℚ))) := by
  have h1 : calculate_label_input_metric [⟨true, none⟩, ⟨true, some "x"⟩]
      [⟨true, some "x", false⟩] = .ok (.score 0) := by
    have hc : countExc (inputContributes [⟨true, none⟩, ⟨true, some "x"⟩])
        [⟨true, some "x", false⟩] = .ok 0 := by decide
    simp [calculate_label_input_metric, hc]
  have h2 : List.countP (limMatched [⟨true, none⟩, ⟨true, some "x"⟩])
      [⟨true, some "x", false⟩] = 1 := by decide
  rw [h1, h2]
  norm_num

/-- Witness for C4: `<input id="x">` against `<label for="x-field">`
(substring match) gives LIM = 1.0. -/
theorem lim_general_witness :
    calculate_label_input_metric labelListW inputListW = .ok (.score 1) := by
  have h := (lim_general labelListW inputListW (by decide) (by decide)
    (by decide) (by decide)).1
  have hc : List.countP (limMatched labelListW) inputListW = 1 := by decide
  rw [h, hc]
  norm_num [inputListW]

/-- C5: metric range: on any record satisfying the data-model invariant,
each of the three metrics returns (without raising) either the
`"No Data"` sentinel or a score between 0 and 1 inclusive. -/
theorem metric_range (r : Record) (h : RecordInv r) :
    (∃ v, calculate_alt_metric r.alt_tags = .ok v ∧ metricInRange v)
    ∧ (∃ v, calculate_hyperlinks_metric r.href_tags = .ok v ∧ metricInRange v)
    ∧ (∃ v, calculate_label_input_metric r.label_tags r.input_tags = .ok v ∧
        metricInRange v) := by
  obtain ⟨h1, h2, h3, h4⟩ := h
  refine ⟨⟨_, alt_metric_eval r.alt_tags h1, ?_⟩,
          ⟨_, hyperlinks_metric_eval r.href_tags h2, ?_⟩,
          lim_total r.label_tags r.input_tags h3 h4⟩
  · by_cases h0 : r.alt_tags.length = 0
    · simp [h0, metricInRange]
    · simp only [h0, if_false, metricInRange]
      exact ratio_in_range _ _ (List.countP_le_length _) h0
  · by_cases h0 : r.href_tags.length = 0
    · simp [h0, metricInRange]
    · simp only [h0, if_false, metricInRange]
      exact ratio_in_range _ _ (List.countP_le_length _) h0

/-- Witness for C5: the three range statements instantiated at the
concrete record `recW`. -/
theorem metric_range_witness :
    (∃ v, calculate_alt_metric recW.alt_tags = .ok v ∧ metricInRange v)
    ∧ (∃ v, calculate_hyperlinks_metric recW.href_tags = .ok v ∧ metricInRange v)
    ∧ (∃ v, calculate_label_input_metric recW.label_tags recW.input_tags = .ok v ∧
        metricInRange v) :=
  metric_range recW (by decide)

/-- C6: refuted by the code, supporting a code-bug verdict: an `<a>`
fragment lacking `href` raises a `KeyError` inside
`_calculate_hyperlinks_metric` (which has no `try`); the element is not
skipped, the later accessible element of the same computation is never
processed, and the exception escapes `calculate_metrics`, aborting the
record and the run instead of producing sentinel columns. -/
theorem ham_exception_escapes :
    calculate_metrics lookupW
      [⟨"bad.com", [⟨true, some "logo"⟩],
        [⟨true, none, "Home"⟩, ⟨true, some "/shoes", "shoes"⟩], [], []⟩] =
      .error .keyError := by decide

/-- C7: refuted by the code, supporting a code-bug verdict: a missing
`href` raises an uncaught `KeyError` out of the HAM computation, and a
`<label>` lacking `for` raises a `KeyError` that the input-level handler
absorbs by abandoning the label scan for the current input, so the later
matching label is never examined: LIM is 0 with the deficient label
present and 1 without it. -/
theorem attr_absence_not_local :
    calculate_hyperlinks_metric [⟨true, none, "Home"⟩] = .error .keyError
    ∧ calculate_label_input_metric [⟨true, none⟩, ⟨true, some "x"⟩]
        [⟨true, some "x", false⟩] = .ok (.score 0)
    ∧ calculate_label_input_metric [⟨true, some "x"⟩]
        [⟨true, some "x", false⟩] = .ok (.score 1) := by
  refine ⟨by decide, ?_, ?_⟩
  · have hc : countExc (inputContributes [⟨true, none⟩, ⟨true, some "x"⟩])
        [⟨true, some "x", false⟩] = .ok 0 := by decide
    simp [calculate_label_input_metric, hc]
  · have hc : countExc (inputContributes [⟨true, some "x"⟩])
        [⟨true, some "x", false⟩] = .ok 1 := by decide
    simp [calculate_label_input_metric, hc]

/-- C8: aggregator round-trip: for every stored list of records
satisfying the data-model invariant, the run produces exactly one row
per record, in stored-iteration order, each row produced from its own
record (appended and flushed before the next record is touched) and
starting with that record's name. -/
theorem aggregator_round_trip (lookup : String → LookupOutcome)
    (records : List Record) (hinv : ∀ r ∈ records, RecordInv r) :
    ∃ rows, calculate_metrics lookup records = .ok rows ∧
      rows.length = records.length ∧
      List.Forall₂ (fun row r => processRecord lookup r = .ok row ∧
        row.head? = some (.str r.name)) rows records := by
  induction records with
  | nil => exact ⟨[], rfl, rfl, List.Forall₂.nil⟩
  | cons r rs ih =>
    obtain ⟨rows, hrows, hlen, hnames⟩ := ih (fun x hx => hinv x (List.mem_cons_of_mem _ hx))
    obtain ⟨v1, v2, v3, hrow⟩ := processRecord_ok lookup r (hinv r (List.mem_cons_self _ _))
    refine ⟨[.str r.name, .metric v1, .metric v2, .metric v3,
             .str (accessibilityPercent (lookup r.name))] :: rows, ?_, ?_, ?_⟩
    · simp [calculate_metrics, hrow, hrows]
    · simp [hlen]
    · exact List.Forall₂.cons ⟨hrow, rfl⟩ hnames

/-- Witness for C8: the round-trip statement instantiated at the two
concrete records of `recsW` with the always-failing lookup. -/
theorem aggregator_round_trip_witness :
    ∃ rows, calculate_metrics lookupW recsW = .ok rows ∧
      rows.length = recsW.length ∧
      List.Forall₂ (fun row r => processRecord lookupW r = .ok row ∧
        row.head? = some (.str r.name)) rows recsW :=
  aggregator_round_trip lookupW recsW (by decide)

/-- C9: evaluator determinism/idempotence: the three metric computations
are functions of their tag lists alone — the embedding threads no other
state, mirroring that the Python methods read nothing but their
arguments and write nothing but the per-record row buffer — so two runs
on identical lists are identical, and aggregating the same record twice
yields two identical rows. -/
theorem evaluator_idempotent (lookup : String → LookupOutcome) (r : Record) :
    evalRecord r = evalRecord r
    ∧ (RecordInv r → ∃ row, calculate_metrics lookup [r, r] = .ok [row, row]) := by
  refine ⟨rfl, fun h => ?_⟩
  obtain ⟨v1, v2, v3, hrow⟩ := processRecord_ok lookup r h
  refine ⟨[.str r.name, .metric v1, .metric v2, .metric v3,
           .str (accessibilityPercent (lookup r.name))], ?_⟩
  simp [calculate_metrics, hrow]

/-- Witness for C9: the idempotence statement at the concrete record
`recW`, with the invariant discharged by computation. -/
theorem evaluator_idempotent_witness :
    evalRecord recW = evalRecord recW
    ∧ ∃ row, calculate_metrics lookupW [recW, recW] = .ok [row, row] :=
  ⟨(evaluator_idempotent lookupW recW).1,
   (evaluator_idempotent lookupW recW).2 (by decide)⟩

/-- C10: row-width invariant: under the data-model invariant every
metric method appends exactly one value on its non-exception path and
the accessibility lookup always appends exactly one string (its model
`accessibilityPercent` is total because `_get_accessibility_percent`
wraps every stage in a catch-all and falls back to `"-1%"`), so each
written row has exactly five cells starting with the record's name. -/
theorem row_width_invariant (lookup : String → LookupOutcome) (r : Record)
    (h : RecordInv r) :
    ∃ row, processRecord lookup r = .ok row ∧ row.length = 5 ∧
      row.head? = some (.str r.name) := by
  obtain ⟨v1, v2, v3, hrow⟩ := processRecord_ok lookup r h
  exact ⟨_, hrow, rfl, rfl⟩

/-- Witness for C10: the five-cell row statement at the concrete record
`recW`. -/
theorem row_width_invariant_witness :
    ∃ row, processRecord lookupW recW = .ok row ∧ row.length = 5 ∧
      row.head? = some (.str recW.name) :=
  row_width_invariant lookupW recW (by decide)
